import Mathlib

/-!
Verification of the `ioredis-lock` core (`src/lib/lock.js`): a distributed
lock client over a key-value store with atomic conditional writes
(`SET key value PX timeout NX`) and an atomic `delifequal` script.

The JS source is shallowly embedded: promises become explicit result
values, the retry recursion of `Lock.prototype._attemptLock` becomes a
fuel-indexed recursion (the JS `retries` counter is a JS number, modelled
as `Int`, and its falsy test `!retries` as `retries = 0`), and the store
replies per attempt are given by an oracle `Nat → SetReply`.
-/

namespace IoredisLock

/-- Reply of the store to one conditional write `setAsync(key, id, PX, timeout, NX)`:
`ok` is a truthy result (key was set), `nil` a falsy result (the key already
existed, NX refused), `err` a rejected call (transport/connectivity error). -/
inductive SetReply where
  | ok : SetReply
  | nil : SetReply
  | err (e : String) : SetReply
deriving DecidableEq, Repr

/-- The two error classes `lock.js` instantiates (their definitions live in
`errors.js`, which only `lock.js` references; the constructors carry the
message string built at the throw site). -/
inductive LockError where
  | acquisitionError (msg : String) : LockError
  | releaseError (msg : String) : LockError
deriving DecidableEq, Repr

/-- Modelled from the spec: `errors.js` is not under `src/`; the spec's
`AlreadyHeldError` kind is realized in `lock.js` as the acquisition-error
class carrying the message of `acquire`'s locked-guard rejection. -/
def alreadyHeldError : LockError := .acquisitionError "Lock already held"

/-- Outcome of the `_attemptLock` retry recursion. `noFuel` marks fuel
exhaustion of the embedding, i.e. the JS recursion has not finished within
the given number of attempts. -/
inductive AttemptOutcome where
  | acquired : AttemptOutcome
  | acqError (msg : String) : AttemptOutcome
  | transport (e : String) : AttemptOutcome
  | noFuel : AttemptOutcome
deriving DecidableEq, Repr

/-- Embeds `Lock.prototype._attemptLock(key, retries)`: issue the conditional write
for attempt `i`; on a falsy reply with a falsy (`= 0`) retries counter throw
`LockAcquisitionError('Could not acquire lock on ' + key)`; on a truthy reply
resolve; otherwise wait `delay` and recurse with `retries - 1`. A rejected
write propagates unmodified. Returns (outcome, number of conditional-write
attempts, total milliseconds spent in `Promise.delay`). -/
def attemptLock (delay : Nat) (oracle : Nat → SetReply) (key : String) :
    Nat → Int → Nat → AttemptOutcome × Nat × Nat
  | _, _, 0 => (.noFuel, 0, 0)
  | i, retries, fuel + 1 =>
    match oracle i with
    | .err e => (.transport e, 1, 0)
    | .ok => (.acquired, 1, 0)
    | .nil =>
      if retries = 0 then
        (.acqError ("Could not acquire lock on " ++ key), 1, 0)
      else
        let r := attemptLock delay oracle key (i + 1) (retries - 1) fuel
        (r.1, r.2.1 + 1, r.2.2 + delay)

/-- The per-instance state of a `Lock` object: ownership token `id`
(uuid.v1, immutable), the `locked` flag, the held `key` (JS `null` is
`none`), and the three options. -/
structure LockState where
  id : String
  locked : Bool
  key : Option String
  timeout : Nat
  retries : Int
  delay : Nat
deriving DecidableEq, Repr

/-- Outcome of `Lock.prototype.acquire`: fulfilled, rejected with a
`LockError`, rejected with a propagated transport error, or out of fuel. -/
inductive AcquireOutcome where
  | success : AcquireOutcome
  | failure (e : LockError) : AcquireOutcome
  | transport (e : String) : AcquireOutcome
  | noFuel : AcquireOutcome
deriving DecidableEq, Repr

/-- Everything `acquire` settles with: the outcome, the lock's state
afterwards, the process-wide `Lock._acquiredLocks` registry (as the list of
registered lock ids), the number of conditional writes issued, and the
total delay slept. -/
structure AcquireTrace where
  outcome : AcquireOutcome
  lock : LockState
  acquiredLocks : List String
  attempts : Nat
  totalDelay : Nat
deriving DecidableEq, Repr

/-- Embeds `Lock.prototype.acquire(key)`: reject immediately with
`LockAcquisitionError('Lock already held')` when `this.locked`, issuing no
conditional write; otherwise run `_attemptLock(key, this.retries)` and on
fulfilment set `locked`, record `key` and register the lock in
`Lock._acquiredLocks`. (The optional node-style callback is `nodeify` over
the same settled outcome and is not modelled separately.) -/
def acquire (l : LockState) (acq : List String) (oracle : Nat → SetReply)
    (key : String) (fuel : Nat) : AcquireTrace :=
  if l.locked then
    ⟨.failure (.acquisitionError "Lock already held"), l, acq, 0, 0⟩
  else
    match attemptLock l.delay oracle key 0 l.retries fuel with
    | (.acquired, a, d) =>
        ⟨.success, { l with locked := true, key := some key }, l.id :: acq, a, d⟩
    | (.acqError m, a, d) => ⟨.failure (.acquisitionError m), l, acq, a, d⟩
    | (.transport e, a, d) => ⟨.transport e, l, acq, a, d⟩
    | (.noFuel, a, d) => ⟨.noFuel, l, acq, a, d⟩

/-- The store oracle of a contended key: every conditional write comes back
falsy (the key is always already held by someone else). -/
def alwaysNil : Nat → SetReply := fun _ => .nil

/-- Store oracle whose first `t` conditional writes come back falsy and
whose attempt `t` rejects with transport error `e`. -/
def errAt (t : Nat) (e : String) : Nat → SetReply :=
  fun j => if j < t then .nil else .err e

/-- The keyspace of the store, as an association list from keys to the
string values held there (redis `GET k` is the first binding of `k`). -/
abbrev Store : Type := List (String × String)

/-- Value currently stored at `k`, or `none` when the key is absent. -/
def Store.get : Store → String → Option String
  | [], _ => none
  | (k, v) :: s, key => if k = key then some v else Store.get s key

/-- Remove every binding of `key` (redis `DEL`). -/
def Store.del : Store → String → Store
  | [], _ => []
  | (k, v) :: s, key => if k = key then Store.del s key else (k, v) :: Store.del s key

/-- Modelled from the spec: `scripts.js` (the `delifequal` Lua source) is
not under `src/`; per the spec the script atomically reads `KEYS[1]`,
deletes it and reports 1 when the value equals `ARGV[1]`, and reports 0
without deleting otherwise. -/
def delifequal (s : Store) (key tok : String) : Nat × Store :=
  if s.get key = some tok then (1, s.del key) else (0, s)

/-- Outcome of `Lock.prototype.release`: fulfilled, thrown synchronously
before any I/O, or rejected after the script ran. -/
inductive ReleaseOutcome where
  | success : ReleaseOutcome
  | syncThrow (e : LockError) : ReleaseOutcome
  | failure (e : LockError) : ReleaseOutcome
deriving DecidableEq, Repr

/-- Everything `release` settles with: the outcome, the lock's state
afterwards, the `Lock._acquiredLocks` registry, the store keyspace, and
the number of `delifequal` script invocations made. -/
structure ReleaseTrace where
  outcome : ReleaseOutcome
  lock : LockState
  acquiredLocks : List String
  store : Store
  scriptCalls : Nat
deriving DecidableEq, Repr

/-- Embeds `Lock.prototype.release()`: throw `LockReleaseError('Lock has not been
acquired')` synchronously when not `locked`; otherwise run
`delifequal(key, this.id)`, clear `locked` and `key`, and on a falsy script
result reject with `LockReleaseError('Lock on ' + key + ' has expired')`.
(`key` is the held key; a JS `null` key would stringify, modelled by the
`Option.getD` default, and is unreachable while `locked` is set through
`acquire`.) Note the source never deletes `this.id` from
`Lock._acquiredLocks`, so the registry is returned unchanged. -/
def release (l : LockState) (acq : List String) (s : Store) : ReleaseTrace :=
  if !l.locked then
    ⟨.syncThrow (.releaseError "Lock has not been acquired"), l, acq, s, 0⟩
  else
    let key := l.key.getD "null"
    let res := delifequal s key l.id
    let cleared := { l with locked := false, key := none }
    if res.1 = 0 then
      ⟨.failure (.releaseError ("Lock on " ++ key ++ " has expired")), cleared, acq, res.2, 1⟩
    else
      ⟨.success, cleared, acq, res.2, 1⟩

/-- The externally supplied redis client object, as far as `lock.js`
touches it: its `connection_id` property (absent is `none`) and whether the
three promisified methods `getAsync`/`setAsync`/`watchAsync` are present. -/
structure Client where
  connection_id : Option String
  hasGetAsync : Bool
  hasSetAsync : Bool
  hasWatchAsync : Bool
deriving DecidableEq, Repr

/-- The process-wide registries `Lock._promisifiedClients` and
`Lock._shavaluators`, each as the list of connection ids registered. -/
structure Registries where
  promisifiedClients : List String
  shavaluators : List String
deriving DecidableEq, Repr

/-- Embeds `Lock.prototype._setupClient(client)`: assign a fresh
`connection_id` when the client lacks one; when that id is already in
`Lock._promisifiedClients`, reuse the stored client; otherwise promisify
the absent async methods, store the client, and use it. The returned `Nat`
counts the promisification passes performed (0 or 1). -/
def setupClient (fresh : String) (c : Client) (reg : Registries) :
    Client × Registries × Nat :=
  let c1 := if c.connection_id = none then { c with connection_id := some fresh } else c
  let id := c1.connection_id.getD ""
  if id ∈ reg.promisifiedClients then
    (c1, reg, 0)
  else
    ({ c1 with hasGetAsync := true, hasSetAsync := true, hasWatchAsync := true },
     { reg with promisifiedClients := id :: reg.promisifiedClients }, 1)

/-- Embeds `Lock.prototype._setupLuaScripts(client)`: when no Shavaluator is
registered under `client.connection_id`, create one and add the
`delifequal` script; otherwise reuse it. The returned `Nat` counts the
script registrations performed (0 or 1). -/
def setupLuaScripts (c : Client) (reg : Registries) : Registries × Nat :=
  let id := c.connection_id.getD ""
  if id ∈ reg.shavaluators then
    (reg, 0)
  else
    ({ reg with shavaluators := id :: reg.shavaluators }, 1)

/-- The connection identity `_setupClient` ends up keying the registries
by: the client's own `connection_id` when present, else the fresh uuid
assigned to it. -/
def connId (fresh : String) (c : Client) : String :=
  match c.connection_id with
  | none => fresh
  | some i => i

/-- The recognized constructor options; `none` means the option was not
supplied, so the `Lock._defaults` value applies. -/
structure Options where
  timeout : Option Nat := none
  retries : Option Int := none
  delay : Option Nat := none
deriving DecidableEq, Repr

/-- What one `new Lock(client, options)` evaluation produces: the lock
instance, the (possibly mutated) client object, the updated process-wide
registries, and the promisification-pass and script-registration counts. -/
structure ConstructResult where
  lock : LockState
  client : Client
  reg : Registries
  wraps : Nat
  scriptAdds : Nat
deriving DecidableEq, Repr

/-- The `Lock` constructor: fresh uuid `id`, `locked = false`, `key = null`,
then `_setupClient` and `_setupLuaScripts`, then the options
`{timeout: 10000, retries: 0, delay: 100}` from `Lock._defaults` overridden
by the recognized supplied options. `lockId` stands for the fresh
`uuid.v1()` assigned to the lock and `freshConnId` for the one assigned to
the client when it has no `connection_id`. -/
def constructLock (lockId freshConnId : String) (c : Client) (reg : Registries)
    (opts : Options) : ConstructResult :=
  let sc := setupClient freshConnId c reg
  let sl := setupLuaScripts sc.1 sc.2.1
  { lock :=
      { id := lockId, locked := false, key := none,
        timeout := opts.timeout.getD 10000,
        retries := opts.retries.getD 0,
        delay := opts.delay.getD 100 },
    client := sc.1, reg := sl.1, wraps := sc.2.2, scriptAdds := sl.2 }

/-- One of the two competing lock instances of the mutual-exclusion
property. -/
inductive Who where
  | A : Who
  | B : Who
deriving DecidableEq, Repr

/-- The shared state two locks race over: the store keyspace, the two lock
instances, and the process-wide acquired-locks registry. -/
structure World where
  store : Store
  a : LockState
  b : LockState
  acquired : List String
deriving DecidableEq, Repr

/-- Read one competitor's lock state. -/
def World.lockOf (w : World) : Who → LockState
  | .A => w.a
  | .B => w.b

/-- Replace one competitor's lock state. -/
def World.setLock (w : World) : Who → LockState → World
  | .A, l => { w with a := l }
  | .B, l => { w with b := l }

/-- Atomic events the store serializes when locks race: one conditional
write issued by a lock's `_attemptLock` (an `acquire` call with `retries = N`
unfolds into up to `N + 1` such events, interleavable with the others), one
`release()` call, and the store's own TTL expiry of a key. -/
inductive Ev where
  | tryAcquire (w : Who) (key : String) : Ev
  | doRelease (w : Who) : Ev
  | expire (k : String) : Ev
deriving DecidableEq, Repr

/-- One event against the world. `tryAcquire` follows `acquire`: a locked
instance rejects without touching the store; otherwise the conditional
write `SET key id PX timeout NX` succeeds exactly when the key is absent,
and only then does the instance transition to `locked`, record the key and
register itself (a failed attempt mutates nothing — `_attemptLock` either
retries or rejects). `doRelease` runs the embedded `release`. `expire`
deletes a key, uninstructed, as the store's TTL does. -/
def stepEv (w : World) : Ev → World
  | .tryAcquire who key =>
    let l := w.lockOf who
    if l.locked then w
    else if (w.store.get key).isSome then w
    else
      { (w.setLock who { l with locked := true, key := some key }) with
          store := (key, l.id) :: w.store, acquired := l.id :: w.acquired }
  | .doRelease who =>
    let r := release (w.lockOf who) w.acquired w.store
    { (w.setLock who r.lock) with store := r.store, acquired := r.acquiredLocks }
  | .expire k => { w with store := w.store.del k }

/-- Run a list of events left to right. -/
def runEvs (w : World) : List Ev → World
  | [] => w
  | e :: es => runEvs (stepEv w e) es

/-! ## Theorems -/

/-- Deleting one key leaves every other key's value unchanged. -/
theorem Store.get_del_ne (s : Store) (k K : String) (h : k ≠ K) :
    (s.del k).get K = s.get K := by
  induction s with
  | nil => rfl
  | cons p s ih =>
    obtain ⟨k1, v1⟩ := p
    by_cases h1 : k1 = k
    · simp [Store.del, Store.get, h1, h, ih]
    · by_cases h2 : k1 = K
      · simp [Store.del, Store.get, h1, h2, Ne.symm h, ih]
      · simp [Store.del, Store.get, h1, h2, ih]

/-- Against an always-rejecting store, `_attemptLock` with a non-negative
counter `N` issues exactly `N + 1` conditional writes, sleeps `N` delays,
and throws the acquisition error naming the key. -/
theorem attemptLock_alwaysNil (D : Nat) (key : String) :
    ∀ (N i fuel : Nat), N + 1 ≤ fuel →
      attemptLock D alwaysNil key i (N : Int) fuel =
        (.acqError ("Could not acquire lock on " ++ key), N + 1, N * D) := by
  intro N
  induction N with
  | zero =>
    intro i fuel hf
    match fuel, hf with
    | f + 1, _ => simp [attemptLock, alwaysNil]
  | succ n ih =>
    intro i fuel hf
    match fuel, hf with
    | f + 1, hf =>
      have hne : ((n + 1 : Nat) : Int) ≠ 0 := by omega
      have hsub : ((n + 1 : Nat) : Int) - 1 = (n : Int) := by omega
      have hrec := ih (i + 1) f (by omega)
      simp only [attemptLock, alwaysNil, if_neg hne, hsub, hrec, Prod.mk.injEq]
      exact ⟨trivial, trivial, by ring⟩

/-- C2: on a non-locked Lock with `retries = N` and `delay = D`, against a
store whose conditional write always comes back falsy, `acquire(key)`
issues exactly `N + 1` conditional writes, sleeps `D` milliseconds between
consecutive attempts (`N * D` in total), and settles rejected with an
acquisition error naming the key, leaving the lock state and the
acquired-locks registry unchanged. -/
theorem acquire_contended_exhausts_retries (l : LockState) (acq : List String)
    (key : String) (N fuel : Nat) (hl : l.locked = false)
    (hr : l.retries = (N : Int)) (hf : N + 1 ≤ fuel) :
    acquire l acq alwaysNil key fuel =
      ⟨.failure (.acquisitionError ("Could not acquire lock on " ++ key)),
        l, acq, N + 1, N * l.delay⟩ := by
  unfold acquire
  rw [hl, hr, attemptLock_alwaysNil l.delay key N 0 fuel hf]
  simp

/-- Witness for C2 at `N = 2`, `D = 100`. -/
theorem acquire_contended_exhausts_retries_witness :
    acquire ⟨"ida", false, none, 10000, 2, 100⟩ [] alwaysNil "res1" 3 =
      ⟨.failure (.acquisitionError "Could not acquire lock on res1"),
        ⟨"ida", false, none, 10000, 2, 100⟩, [], 3, 200⟩ := by
  have h := acquire_contended_exhausts_retries ⟨"ida", false, none, 10000, 2, 100⟩ []
    "res1" 2 3 rfl rfl (by decide)
  simpa using h

/-- C9: with a non-negative integer `retries = N`, the `_attemptLock`
recursion terminates within `N + 1` conditional-write attempts whatever the
store replies (the counter reaches its falsy base case); with a negative
initial counter and a store that keeps rejecting, no amount of fuel ever
reaches a settled outcome — the recursion does not terminate. -/
theorem attemptLock_wellFounded_iff_nonneg :
    (∀ (oracle : Nat → SetReply) (key : String) (D N i fuel : Nat), N + 1 ≤ fuel →
      (attemptLock D oracle key i (N : Int) fuel).1 ≠ .noFuel ∧
      (attemptLock D oracle key i (N : Int) fuel).2.1 ≤ N + 1) ∧
    (∀ (key : String) (D : Nat) (r : Int), r < 0 → ∀ (i fuel : Nat),
      (attemptLock D alwaysNil key i r fuel).1 = .noFuel) := by
  constructor
  · intro oracle key D N
    induction N with
    | zero =>
      intro i fuel hf
      match fuel, hf with
      | f + 1, _ =>
        cases hor : oracle i <;> simp [attemptLock, hor]
    | succ n ih =>
      intro i fuel hf
      match fuel, hf with
      | f + 1, hf =>
        have hne : ((n + 1 : Nat) : Int) ≠ 0 := by omega
        have hsub : ((n + 1 : Nat) : Int) - 1 = (n : Int) := by omega
        have hrec := ih (i + 1) f (by omega)
        cases hor : oracle i with
        | ok =>
          simp only [attemptLock, hor]
          exact ⟨by simp, by omega⟩
        | nil =>
          simp only [attemptLock, hor, if_neg hne, hsub]
          exact ⟨hrec.1, by have h2 := hrec.2; omega⟩
        | err e =>
          simp only [attemptLock, hor]
          exact ⟨by simp, by omega⟩
  · intro key D r hr i fuel
    induction fuel generalizing i r with
    | zero => rfl
    | succ f ih =>
      have hne : r ≠ 0 := by omega
      simp only [attemptLock, alwaysNil, if_neg hne]
      exact ih (r - 1) (by omega) (i + 1)

/-- Witness for C9: retries 2 settles within 3 attempts; retries -1 is
still unsettled after 7 attempts worth of fuel. -/
theorem attemptLock_wellFounded_iff_nonneg_witness :
    (attemptLock 100 alwaysNil "res1" 0 (2 : Int) 3).1 ≠ .noFuel ∧
    (attemptLock 100 alwaysNil "res1" 0 (-1 : Int) 7).1 = .noFuel :=
  ⟨(attemptLock_wellFounded_iff_nonneg.1 alwaysNil "res1" 100 2 0 3 (by decide)).1,
    attemptLock_wellFounded_iff_nonneg.2 "res1" 100 (-1) (by decide) 0 7⟩

/-- C4: `acquire` on a Lock whose `locked` flag is set settles immediately
rejected with the already-held acquisition error, issuing zero conditional
writes and zero delay, and changes neither the lock state nor the
acquired-locks registry. -/
theorem acquire_on_locked_rejects_locally (l : LockState) (acq : List String)
    (oracle : Nat → SetReply) (key : String) (fuel : Nat) (hl : l.locked = true) :
    acquire l acq oracle key fuel = ⟨.failure alreadyHeldError, l, acq, 0, 0⟩ := by
  unfold acquire
  rw [hl]
  rfl

/-- Witness for C4 on a concrete locked Lock. -/
theorem acquire_on_locked_rejects_locally_witness :
    acquire ⟨"ida", true, some "res1", 10000, 0, 100⟩ ["ida"] alwaysNil "res2" 5 =
      ⟨.failure alreadyHeldError, ⟨"ida", true, some "res1", 10000, 0, 100⟩, ["ida"], 0, 0⟩ :=
  acquire_on_locked_rejects_locally ⟨"ida", true, some "res1", 10000, 0, 100⟩ ["ida"]
    alwaysNil "res2" 5 rfl

/-- When the first `t` writes are refused and write `t` rejects with a
transport error, `_attemptLock` surfaces that error after exactly `t + 1`
attempts and `t` delays, provided the counter started at `t` or above. -/
theorem attemptLock_errAt (D : Nat) (key e : String) :
    ∀ (k : Nat) (r : Int) (i fuel : Nat), (k : Int) ≤ r → k + 1 ≤ fuel →
      attemptLock D (errAt (i + k) e) key i r fuel = (.transport e, k + 1, k * D) := by
  intro k
  induction k with
  | zero =>
    intro r i fuel hr hf
    match fuel, hf with
    | f + 1, _ => simp [attemptLock, errAt]
  | succ n ih =>
    intro r i fuel hr hf
    match fuel, hf with
    | f + 1, hf =>
      have hne : r ≠ 0 := by omega
      have hsh : i + (n + 1) = (i + 1) + n := by omega
      have hrec := ih (r - 1) (i + 1) f (by omega) (by omega)
      rw [hsh]
      have hi : i < (i + 1) + n := by omega
      have hnil : errAt ((i + 1) + n) e i = .nil := by simp [errAt, hi]
      simp only [attemptLock, hnil, if_neg hne, hrec, Prod.mk.injEq]
      exact ⟨trivial, trivial, by ring⟩

/-- C6: a transport-level rejection of the conditional write during
`acquire` surfaces to the caller as that same error (not wrapped in an
acquisition error), the retry loop stops at that attempt even though
retries remain, and the lock state and acquired-locks registry are left
unchanged. -/
theorem acquire_transport_error_propagates (l : LockState) (acq : List String)
    (key e : String) (t fuel : Nat) (hl : l.locked = false)
    (hr : (t : Int) ≤ l.retries) (hf : t + 1 ≤ fuel) :
    acquire l acq (errAt t e) key fuel =
      ⟨.transport e, l, acq, t + 1, t * l.delay⟩ := by
  unfold acquire
  have h := attemptLock_errAt l.delay key e t l.retries 0 fuel (by simpa using hr) hf
  rw [hl]
  simp only [Nat.zero_add] at h
  rw [h]
  simp

/-- Witness for C6: two refused writes, then a connection error, with five
retries still in budget. -/
theorem acquire_transport_error_propagates_witness :
    acquire ⟨"ida", false, none, 10000, 5, 100⟩ [] (errAt 2 "ECONNRESET") "res1" 4 =
      ⟨.transport "ECONNRESET", ⟨"ida", false, none, 10000, 5, 100⟩, [], 3, 200⟩ := by
  have h := acquire_transport_error_propagates ⟨"ida", false, none, 10000, 5, 100⟩ []
    "res1" "ECONNRESET" 2 4 rfl (by decide) (by decide)
  simpa using h

/-- C7: `release` on a Lock whose `locked` flag is clear throws the
release error synchronously — zero script invocations — and changes
nothing: lock state, registry and store are returned as they were. -/
theorem release_on_idle_throws_locally (l : LockState) (acq : List String)
    (s : Store) (hl : l.locked = false) :
    release l acq s =
      ⟨.syncThrow (.releaseError "Lock has not been acquired"), l, acq, s, 0⟩ := by
  unfold release
  rw [hl]
  rfl

/-- Witness for C7 on a concrete never-acquired Lock. -/
theorem release_on_idle_throws_locally_witness :
    release ⟨"ida", false, none, 10000, 0, 100⟩ [] [("res1", "idb")] =
      ⟨.syncThrow (.releaseError "Lock has not been acquired"),
        ⟨"ida", false, none, 10000, 0, 100⟩, [], [("res1", "idb")], 0⟩ :=
  release_on_idle_throws_locally ⟨"ida", false, none, 10000, 0, 100⟩ [] [("res1", "idb")] rfl

/-- C5: when the Lock is `locked` on key `k` but the store no longer maps
`k` to this Lock's id, `release` settles rejected with the release error
naming `k`, yet the local state is cleared all the same: the `locked` flag
drops and `key` becomes `null`; the store is untouched. -/
theorem release_expired_fails_but_clears (l : LockState) (acq : List String)
    (s : Store) (k : String) (hl : l.locked = true) (hk : l.key = some k)
    (hres : s.get k ≠ some l.id) :
    release l acq s =
      ⟨.failure (.releaseError ("Lock on " ++ k ++ " has expired")),
        { l with locked := false, key := none }, acq, s, 1⟩ := by
  unfold release
  rw [hl, hk]
  simp [delifequal, hres]

/-- Witness for C5: the lease on `res1` expired, the key is gone. -/
theorem release_expired_fails_but_clears_witness :
    release ⟨"ida", true, some "res1", 50, 0, 100⟩ ["ida"] [] =
      ⟨.failure (.releaseError "Lock on res1 has expired"),
        ⟨"ida", false, none, 50, 0, 100⟩, ["ida"], [], 1⟩ := by
  have h := release_expired_fails_but_clears ⟨"ida", true, some "res1", 50, 0, 100⟩
    ["ida"] [] "res1" rfl rfl (by decide)
  simpa using h

/-- C3: the successful-release path at a concrete input. The Lock `"ida"`
holds `res1` and the store still maps `res1` to `"ida"`; `delifequal`
reports 1, `release` settles fulfilled, the flag and key clear and the key
is deleted from the store — but `Lock._acquiredLocks` still contains
`"ida"`: the source's `release` never deletes the entry `acquire`
registered, so the claimed deregistration does not happen. -/
theorem release_success_keeps_registration :
    release ⟨"ida", true, some "res1", 10000, 0, 100⟩ ["ida"] [("res1", "ida")] =
      ⟨.success, ⟨"ida", false, none, 10000, 0, 100⟩, ["ida"], [], 1⟩ := by
  decide

/-- C8: building a first Lock against a connection whose identity is not
yet in either registry performs exactly one promisification pass and one
`delifequal` registration; a second Lock built against the resulting
client and registries performs zero of each and leaves both the client
object and the registries exactly as the first construction left them. -/
theorem constructLock_registry_idempotent (c : Client) (r0 : Registries)
    (lid1 lid2 f1 f2 : String) (o1 o2 : Options)
    (hp : connId f1 c ∉ r0.promisifiedClients)
    (hs : connId f1 c ∉ r0.shavaluators) :
    (constructLock lid1 f1 c r0 o1).wraps = 1 ∧
    (constructLock lid1 f1 c r0 o1).scriptAdds = 1 ∧
    (constructLock lid2 f2 (constructLock lid1 f1 c r0 o1).client
        (constructLock lid1 f1 c r0 o1).reg o2).wraps = 0 ∧
    (constructLock lid2 f2 (constructLock lid1 f1 c r0 o1).client
        (constructLock lid1 f1 c r0 o1).reg o2).scriptAdds = 0 ∧
    (constructLock lid2 f2 (constructLock lid1 f1 c r0 o1).client
        (constructLock lid1 f1 c r0 o1).reg o2).client =
      (constructLock lid1 f1 c r0 o1).client ∧
    (constructLock lid2 f2 (constructLock lid1 f1 c r0 o1).client
        (constructLock lid1 f1 c r0 o1).reg o2).reg =
      (constructLock lid1 f1 c r0 o1).reg := by
  cases hc : c.connection_id with
  | none =>
    rw [connId, hc] at hp hs
    simp [constructLock, setupClient, setupLuaScripts, hc, hp, hs]
  | some i =>
    rw [connId, hc] at hp hs
    simp [constructLock, setupClient, setupLuaScripts, hc, hp, hs]

/-- Witness for C8 on a bare client and empty registries. -/
theorem constructLock_registry_idempotent_witness :
    (constructLock "l1" "conn1" ⟨none, false, false, false⟩ ⟨[], []⟩ {}).wraps = 1 ∧
    (constructLock "l1" "conn1" ⟨none, false, false, false⟩ ⟨[], []⟩ {}).scriptAdds = 1 ∧
    (constructLock "l2" "conn2"
        (constructLock "l1" "conn1" ⟨none, false, false, false⟩ ⟨[], []⟩ {}).client
        (constructLock "l1" "conn1" ⟨none, false, false, false⟩ ⟨[], []⟩ {}).reg {}).wraps = 0 ∧
    (constructLock "l2" "conn2"
        (constructLock "l1" "conn1" ⟨none, false, false, false⟩ ⟨[], []⟩ {}).client
        (constructLock "l1" "conn1" ⟨none, false, false, false⟩ ⟨[], []⟩ {}).reg {}).scriptAdds = 0 ∧
    (constructLock "l2" "conn2"
        (constructLock "l1" "conn1" ⟨none, false, false, false⟩ ⟨[], []⟩ {}).client
        (constructLock "l1" "conn1" ⟨none, false, false, false⟩ ⟨[], []⟩ {}).reg {}).client =
      (constructLock "l1" "conn1" ⟨none, false, false, false⟩ ⟨[], []⟩ {}).client ∧
    (constructLock "l2" "conn2"
        (constructLock "l1" "conn1" ⟨none, false, false, false⟩ ⟨[], []⟩ {}).client
        (constructLock "l1" "conn1" ⟨none, false, false, false⟩ ⟨[], []⟩ {}).reg {}).reg =
      (constructLock "l1" "conn1" ⟨none, false, false, false⟩ ⟨[], []⟩ {}).reg :=
  constructLock_registry_idempotent ⟨none, false, false, false⟩ ⟨[], []⟩
    "l1" "l2" "conn1" "conn2" {} {} (by decide) (by decide)

/-- C10: Lock construction mutates the supplied connection object: a
client with no `connection_id` gets the fresh one assigned, and the first
construction attaches the three promisified methods; a second construction
against the same (now registered) client changes the client object not at
all. -/
theorem constructLock_mutates_client_once (c : Client) (r0 : Registries)
    (lid1 lid2 f1 f2 : String) (o1 o2 : Options)
    (hnone : c.connection_id = none)
    (hp : f1 ∉ r0.promisifiedClients) :
    (constructLock lid1 f1 c r0 o1).client.connection_id = some f1 ∧
    (constructLock lid1 f1 c r0 o1).client.hasGetAsync = true ∧
    (constructLock lid1 f1 c r0 o1).client.hasSetAsync = true ∧
    (constructLock lid1 f1 c r0 o1).client.hasWatchAsync = true ∧
    (constructLock lid2 f2 (constructLock lid1 f1 c r0 o1).client
        (constructLock lid1 f1 c r0 o1).reg o2).client =
      (constructLock lid1 f1 c r0 o1).client := by
  by_cases hs2 : f1 ∈ r0.shavaluators <;>
    simp [constructLock, setupClient, setupLuaScripts, hnone, hp, hs2]

/-- Witness for C10 on a bare client and empty registries. -/
theorem constructLock_mutates_client_once_witness :
    (constructLock "l1" "conn1" ⟨none, false, false, false⟩ ⟨[], []⟩ {}).client.connection_id
        = some "conn1" ∧
    (constructLock "l1" "conn1" ⟨none, false, false, false⟩ ⟨[], []⟩ {}).client.hasGetAsync = true ∧
    (constructLock "l1" "conn1" ⟨none, false, false, false⟩ ⟨[], []⟩ {}).client.hasSetAsync = true ∧
    (constructLock "l1" "conn1" ⟨none, false, false, false⟩ ⟨[], []⟩ {}).client.hasWatchAsync
        = true ∧
    (constructLock "l2" "conn2"
        (constructLock "l1" "conn1" ⟨none, false, false, false⟩ ⟨[], []⟩ {}).client
        (constructLock "l1" "conn1" ⟨none, false, false, false⟩ ⟨[], []⟩ {}).reg {}).client =
      (constructLock "l1" "conn1" ⟨none, false, false, false⟩ ⟨[], []⟩ {}).client :=
  constructLock_mutates_client_once ⟨none, false, false, false⟩ ⟨[], []⟩
    "l1" "l2" "conn1" "conn2" {} {} rfl (by decide)

/-- The function `release` never changes the lock's id. -/
theorem release_lock_id (l : LockState) (acq : List String) (s : Store) :
    (release l acq s).lock.id = l.id := by
  unfold release
  split
  · rfl
  · dsimp only
    split <;> rfl

/-- The function `release` leaves every key the lock does not own untouched: the value
of any key whose stored value is not this lock's id is unchanged. -/
theorem release_store_get (l : LockState) (acq : List String) (s : Store) (K : String)
    (h : s.get K ≠ some l.id) : (release l acq s).store.get K = s.get K := by
  unfold release
  by_cases hl : l.locked
  · by_cases he : s.get (l.key.getD "null") = some l.id
    · have hkK : l.key.getD "null" ≠ K := fun hk => h (hk ▸ he)
      simp [hl, delifequal, he, Store.get_del_ne _ _ _ hkK]
    · simp [hl, delifequal, he]
  · simp [hl]

/-- The function `release` cannot put a lock into the `locked` state on a key it did
not already hold: if the lock was not locked on `K` before, it is not
locked on `K` after. -/
theorem release_lock_not_relock (l : LockState) (acq : List String) (s : Store)
    (K : String) (hb : ¬(l.locked = true ∧ l.key = some K)) :
    ¬((release l acq s).lock.locked = true ∧ (release l acq s).lock.key = some K) := by
  unfold release
  by_cases hl : l.locked
  · by_cases hres : (delifequal s (l.key.getD "null") l.id).1 = 0 <;> simp [hl, hres]
  · have hl0 : l.locked = false := by simpa using hl
    simp only [hl0, Bool.not_false, if_true]
    rw [hl0] at hb
    exact hb

/-- A locked instance's conditional-write event changes nothing. -/
theorem stepEv_tryAcquire_locked (w : World) (who : Who) (key : String)
    (h : (w.lockOf who).locked = true) : stepEv w (.tryAcquire who key) = w := by
  simp [stepEv, h]

/-- A conditional write against an occupied key changes nothing. -/
theorem stepEv_tryAcquire_occupied (w : World) (who : Who) (key : String)
    (h1 : (w.lockOf who).locked = false) (h2 : (w.store.get key).isSome = true) :
    stepEv w (.tryAcquire who key) = w := by
  simp [stepEv, h1, h2]

/-- A conditional write by an idle instance against an absent key stores
the instance's id, locks it on the key and registers it. -/
theorem stepEv_tryAcquire_free (w : World) (who : Who) (key : String)
    (h1 : (w.lockOf who).locked = false) (h2 : w.store.get key = none) :
    stepEv w (.tryAcquire who key) =
      { (w.setLock who { w.lockOf who with locked := true, key := some key }) with
          store := (key, (w.lockOf who).id) :: w.store,
          acquired := (w.lockOf who).id :: w.acquired } := by
  simp [stepEv, h1, h2]

/-- One event never changes either competitor's id. -/
theorem stepEv_ids (w : World) (e : Ev) :
    (stepEv w e).a.id = w.a.id ∧ (stepEv w e).b.id = w.b.id := by
  cases e with
  | tryAcquire who key =>
    cases who <;>
      simp only [stepEv, World.lockOf, World.setLock] <;>
      split <;> (try exact ⟨rfl, rfl⟩) <;> split <;> exact ⟨rfl, rfl⟩
  | doRelease who =>
    cases who <;> simp [stepEv, World.lockOf, World.setLock, release_lock_id]
  | expire k => exact ⟨rfl, rfl⟩

/-- One event that is neither a release by A nor the expiry of `K`
preserves A's store-side ownership of `K` and B's exclusion from it. -/
theorem stepEv_preserves (K : String) (w : World) (e : Ev)
    (hid : w.b.id ≠ w.a.id)
    (hstore : w.store.get K = some w.a.id)
    (hb : ¬(w.b.locked = true ∧ w.b.key = some K))
    (hrel : e ≠ .doRelease .A) (hexp : e ≠ .expire K) :
    (stepEv w e).store.get K = some w.a.id ∧
    ¬((stepEv w e).b.locked = true ∧ (stepEv w e).b.key = some K) := by
  cases e with
  | tryAcquire who key =>
    cases h1 : (w.lockOf who).locked with
    | true =>
      rw [stepEv_tryAcquire_locked w who key h1]
      exact ⟨hstore, hb⟩
    | false =>
      cases h2 : w.store.get key with
      | some v =>
        rw [stepEv_tryAcquire_occupied w who key h1 (by rw [h2]; rfl)]
        exact ⟨hstore, hb⟩
      | none =>
        have hkK : key ≠ K := by
          intro hk
          rw [hk, hstore] at h2
          exact Option.noConfusion h2
        rw [stepEv_tryAcquire_free w who key h1 h2]
        have hgK : Store.get ((key, (w.lockOf who).id) :: w.store) K = some w.a.id := by
          simpa [Store.get, hkK] using hstore
        cases who with
        | A => exact ⟨hgK, hb⟩
        | B =>
          refine ⟨hgK, ?_⟩
          intro hcon
          exact hkK (Option.some.inj hcon.2)
  | doRelease who =>
    cases who with
    | A => exact absurd rfl hrel
    | B =>
      have hK : w.store.get K ≠ some w.b.id := by
        rw [hstore]
        intro hcon
        exact hid (Option.some.inj hcon).symm
      refine ⟨?_, ?_⟩
      · exact (release_store_get w.b w.acquired w.store K hK).trans hstore
      · exact release_lock_not_relock w.b w.acquired w.store K hb
  | expire k =>
    have hkK : k ≠ K := fun hk => hexp (hk ▸ rfl)
    exact ⟨(Store.get_del_ne w.store k K hkK).trans hstore, hb⟩

/-- C1 (amended): once A's successful conditional write has put A's id at
key `K`, then along any interleaving of events — further conditional-write
attempts by either lock on any key, releases by B, expiry of other keys —
that contains neither a release by A nor the expiry of `K`, the store
keeps mapping `K` to A's id and B never reaches the `locked` state on `K`:
each of B's attempts fails, so B's `acquire` either exhausts its retries
into an acquisition error or can succeed only after A's key is released
or expires. -/
theorem acquire_mutual_exclusion_while_live (K : String) (evs : List Ev) (w : World)
    (hid : w.b.id ≠ w.a.id)
    (hstore : w.store.get K = some w.a.id)
    (hb : ¬(w.b.locked = true ∧ w.b.key = some K))
    (hrel : Ev.doRelease .A ∉ evs) (hexp : Ev.expire K ∉ evs) :
    (runEvs w evs).store.get K = some w.a.id ∧
    ¬((runEvs w evs).b.locked = true ∧ (runEvs w evs).b.key = some K) := by
  induction evs generalizing w with
  | nil => exact ⟨hstore, hb⟩
  | cons e es ih =>
    rw [List.mem_cons, not_or] at hrel hexp
    have hp := stepEv_preserves K w e hid hstore hb
      (fun h => hrel.1 h.symm) (fun h => hexp.1 h.symm)
    have hids := stepEv_ids w e
    have hrec := ih (stepEv w e) (by rw [hids.1, hids.2]; exact hid)
      (by rw [hids.1]; exact hp.1) hp.2 hrel.2 hexp.2
    rw [hids.1] at hrec
    exact hrec

/-- Witness for C1 (amended): A holds `res1`; B retries three times and
A releases a different key `res2`; `res1` still carries A's id and B is
not locked on it. -/
theorem acquire_mutual_exclusion_while_live_witness :
    (runEvs ⟨[("res1", "ida")], ⟨"ida", true, some "res1", 10000, 0, 100⟩,
        ⟨"idb", false, none, 10000, 2, 100⟩, ["ida"]⟩
      [.tryAcquire .B "res1", .tryAcquire .B "res1", .expire "res2",
        .tryAcquire .B "res1"]).store.get "res1" = some "ida" ∧
    ¬((runEvs ⟨[("res1", "ida")], ⟨"ida", true, some "res1", 10000, 0, 100⟩,
        ⟨"idb", false, none, 10000, 2, 100⟩, ["ida"]⟩
      [.tryAcquire .B "res1", .tryAcquire .B "res1", .expire "res2",
        .tryAcquire .B "res1"]).b.locked = true ∧
      (runEvs ⟨[("res1", "ida")], ⟨"ida", true, some "res1", 10000, 0, 100⟩,
        ⟨"idb", false, none, 10000, 2, 100⟩, ["ida"]⟩
      [.tryAcquire .B "res1", .tryAcquire .B "res1", .expire "res2",
        .tryAcquire .B "res1"]).b.key = some "res1") :=
  acquire_mutual_exclusion_while_live "res1"
    [.tryAcquire .B "res1", .tryAcquire .B "res1", .expire "res2", .tryAcquire .B "res1"]
    ⟨[("res1", "ida")], ⟨"ida", true, some "res1", 10000, 0, 100⟩,
      ⟨"idb", false, none, 10000, 2, 100⟩, ["ida"]⟩
    (by decide) (by decide) (by decide) (by decide) (by decide)

/-- C1 counterexample: the claim's final conjunct — A and B are never both
in the `locked` state for `K` simultaneously — fails on the code. A
acquires `res1` (conditional write succeeds), the store's TTL silently
expires the key, and B's conditional write then succeeds while A has never
released: afterwards both instances report `locked` with key `res1` at the
same time, because expiry never updates A's local flag. -/
theorem both_locked_after_expiry :
    (runEvs ⟨[], ⟨"ida", false, none, 50, 0, 100⟩, ⟨"idb", false, none, 10000, 0, 100⟩, []⟩
        [.tryAcquire .A "res1", .expire "res1", .tryAcquire .B "res1"]).a.locked = true ∧
    (runEvs ⟨[], ⟨"ida", false, none, 50, 0, 100⟩, ⟨"idb", false, none, 10000, 0, 100⟩, []⟩
        [.tryAcquire .A "res1", .expire "res1", .tryAcquire .B "res1"]).a.key = some "res1" ∧
    (runEvs ⟨[], ⟨"ida", false, none, 50, 0, 100⟩, ⟨"idb", false, none, 10000, 0, 100⟩, []⟩
        [.tryAcquire .A "res1", .expire "res1", .tryAcquire .B "res1"]).b.locked = true ∧
    (runEvs ⟨[], ⟨"ida", false, none, 50, 0, 100⟩, ⟨"idb", false, none, 10000, 0, 100⟩, []⟩
        [.tryAcquire .A "res1", .expire "res1", .tryAcquire .B "res1"]).b.key = some "res1" := by
  decide

end IoredisLock
